import Mathlib

/-!
# Verification of `perf-utils`' rotating trace-log writer

A shallow embedding of `src/lib/tracefile.js` (`RotatingTraceLog`).

Modelling conventions:
* JavaScript numbers are modelled by `JsNum`: either a rational value or
  `NaN` (`.nan`).  Adding `undefined` to a number yields `NaN`, and every
  ordered comparison against `NaN` is false, as in JavaScript.
* A trace record is opaque to `tracefile.js` except for `JSON.stringify(json)`
  (modelled by the field `str`) and the property access `json.length`
  (modelled by the field `lenProp`; `none` models an absent property, i.e.
  `undefined` — the records produced by `markTrace` in `trace.js` are plain
  `\x7bpid, tid, ts, name, ph\x7d` objects with no `length` property).
* The file system is an association list from path to content; an open write
  stream is identified by the path it appends to.  `createWriteStream` with
  `flags: 'w'` creates/truncates the target.
* Asynchronous operations run atomically from one suspension point to the
  next; I/O outcomes (`closeStream` failure, `rename` failure, a non-ENOENT
  `stat` failure, `openStream` failure) are injected as boolean parameters.
  A returned `Bool` flag named `threw` models a thrown exception / rejected
  promise (including failed `assert`s).
-/

namespace TraceLog

/-- A JavaScript number: a rational value or `NaN`. -/
inductive JsNum where
  | num (q : ℚ)
  | nan
deriving DecidableEq, Repr

/-- JavaScript `a + b` where `a` is a number and `b` is a number or
`undefined` (`none`): `number + undefined` is `NaN`, and `NaN` is absorbing. -/
def jsAdd : JsNum → Option ℚ → JsNum
  | _, none => .nan
  | .nan, _ => .nan
  | .num q, some l => .num (q + l)

/-- JavaScript `a >= b` for `a` a number-or-NaN and `b` a rational:
any comparison with `NaN` is false. -/
def jsGe : JsNum → ℚ → Bool
  | .nan, _ => false
  | .num q, m => decide (m ≤ q)

/-- A trace record as seen by `tracefile.js`: its JSON serialization
(`JSON.stringify(json)`) and the value of its `length` property
(`none` = absent/`undefined`). -/
structure TraceRecord where
  str : String
  lenProp : Option ℚ := none
deriving DecidableEq, Repr

/-- The file system: an association list from path to file content. -/
def FS := List (String × String)

instance : DecidableEq FS := inferInstanceAs (DecidableEq (List (String × String)))

/-- Content of a file, if it exists. -/
def fsLookup (fs : FS) (name : String) : Option String :=
  match fs with
  | [] => none
  | (n, c) :: rest => if n = name then some c else fsLookup rest name

/-- Create the file or replace its content (used for `flags: 'w'`). -/
def fsSet (fs : FS) (name content : String) : FS :=
  match fs with
  | [] => [(name, content)]
  | (n, c) :: rest =>
    if n = name then (n, content) :: rest else (n, c) :: fsSet rest name content

/-- A stream write: append bytes to the stream's target file. -/
def fsAppend (fs : FS) (name extra : String) : FS :=
  fsSet fs name (((fsLookup fs name).getD "") ++ extra)

/-- Remove a file. -/
def fsRemove (fs : FS) (name : String) : FS :=
  match fs with
  | [] => []
  | (n, c) :: rest => if n = name then fsRemove rest name else (n, c) :: fsRemove rest name

/-- `fs.rename(from, to)`: move the content (no-op if the source is absent). -/
def fsRename (fs : FS) (src dst : String) : FS :=
  match fsLookup fs src with
  | none => fs
  | some c => fsSet (fsRemove fs src) dst c

/-- Result of `fs.stat` on the target path, as consumed by `getFileSize`:
a size, an `ENOENT` error, or any other error. -/
inductive StatResult where
  | size (n : Nat)
  | enoent
  | err
deriving DecidableEq, Repr

/-- What `stat` actually answers on our file-system model (the `err` case is
only ever injected as a fault). -/
def statOf (fs : FS) (name : String) : StatResult :=
  match fsLookup fs name with
  | some c => .size c.length
  | none => .enoent

/-- The mutable state of a `RotatingTraceLog` (constructor fields).
`stream` holds the path the open stream appends to; `timer` holds the delay
of a scheduled retry (`none` = `this.timer == null`).  The source initializes
`filename` to `null`; we model the absent filename as `""` (both are falsy
for the `assert(this.filename)` check). -/
structure LogState where
  stream : Option String
  fileSize : JsNum
  closed : Bool
  closing : Bool
  rotating : Bool
  bufferedEntries : List TraceRecord
  filename : String
  maxFiles : Nat
  maxFileSize : Nat
  id : Nat
  firstEntry : Bool
  timer : Option Nat
deriving DecidableEq, Repr

/-- The literal written before the first record of a file:
`\x7b"traceEvents": [`. -/
def arrayOpen : String := "\x7b\"traceEvents\": ["

/-- The literal written at close time: `]\x7d`. -/
def arrayClose : String := "]\x7d"

/-- The synchronous prefix of `rotate()` as invoked fire-and-forget: the two
guard checks, setting `rotating`, the `assert(this.filename)`, and the
synchronous start of the inner `close()` (setting `closing` and writing
`]\x7d`), up to the first `await` inside `close()`. -/
inductive RotBegin where
  | noop
  | assertThrew
  | suspended
deriving DecidableEq, Repr

/-- Run `rotate()` up to its first suspension point. -/
def rotateBegin (s : LogState) (fs : FS) : LogState × FS × RotBegin :=
  if s.rotating then (s, fs, .noop)
  else if s.stream.isNone || s.closed then (s, fs, .noop)
  else
    match s.stream with
    | none => (s, fs, .noop)
    | some tgt =>
      if s.filename = "" then ({ s with rotating := true }, fs, .assertThrew)
      else
        ({ s with rotating := true, closing := true }, fsAppend fs tgt arrayClose,
          .suspended)

/-- `writeTrace(json)`.  Returns the new state, the new file system, and the
boolean the method returns.  When the size threshold is crossed the method
calls `this.rotate()` without awaiting it; the part of `rotate()` that runs
synchronously before its first suspension (`rotateBegin`) is applied here,
its continuation is `rotateFinish`. -/
def writeTrace (s : LogState) (fs : FS) (json : TraceRecord) : LogState × FS × Bool :=
  if s.stream.isNone && !s.rotating then (s, fs, false)
  else if s.closing && !s.rotating then (s, fs, false)
  else if s.rotating then
    ({ s with bufferedEntries := s.bufferedEntries ++ [json] }, fs, true)
  else
    match s.stream with
    | none => (s, fs, false)
    | some tgt =>
      let str := json.str
      let sfs1 : LogState × FS :=
        if !s.firstEntry then (s, fsAppend fs tgt ("," ++ str))
        else ({ s with firstEntry := false },
              fsAppend (fsAppend fs tgt arrayOpen) tgt str)
      let s2 : LogState := { sfs1.1 with fileSize := jsAdd sfs1.1.fileSize json.lenProp }
      if jsGe s2.fileSize (s2.maxFileSize : ℚ) then
        let r := rotateBegin s2 sfs1.2
        (r.1, r.2.1, true)
      else (s2, sfs1.2, true)

/-- `getFileSize()`: `stat` the target, treat `ENOENT` as size 0, re-throw
any other error. -/
def getFileSize : StatResult → Except Unit Nat
  | .size n => .ok n
  | .enoent => .ok 0
  | .err => .error ()

/-- `retry()`: if a timer is already scheduled do nothing, otherwise schedule
a one-shot 1000 ms timer. -/
def retry (s : LogState) : LogState :=
  if s.timer.isSome then s else { s with timer := some 1000 }

/-- The continuation of `close()` after the `]\x7d` write and the awaited
`endStream` (which never rejects): the awaited `closeStream` either succeeds
(`closeOk = true`) or rejects.  The `finally` block resets `closing` in both
cases; `stream := null` and `closed := true` run only when nothing threw.
The returned flag is `threw`. -/
def closeFinish (s : LogState) (fs : FS) (closeOk : Bool) : LogState × FS × Bool :=
  if closeOk then
    ({ s with closing := false, stream := none, closed := true }, fs, false)
  else
    ({ s with closing := false }, fs, true)

/-- `close()`: the two asserts, `closing := true`, the synchronous
`stream.write(']\x7d')`, then `closeFinish`.  A failed assert throws with the
state untouched. -/
def closeOp (s : LogState) (fs : FS) (closeOk : Bool) : LogState × FS × Bool :=
  if s.closed || s.stream.isNone then (s, fs, true)
  else
    match s.stream with
    | none => (s, fs, true)
    | some tgt =>
      closeFinish { s with closing := true } (fsAppend fs tgt arrayClose) closeOk

/-- The drain loop at the end of `open()`:
`while (this._bufferedEntries.length > 0 && !this.rotating)` — shift the head,
call `writeTrace` on it, unshift it back and stop if the write was rejected.
The third component records the entries that were handed to a successful
`writeTrace`, in order.  `fuel` bounds the iterations; `open()` supplies the
buffer length, which suffices because every continuing iteration removes one
entry. -/
def drainLoop : Nat → LogState → FS → LogState × FS × List TraceRecord
  | 0, s, fs => (s, fs, [])
  | fuel + 1, s, fs =>
    if decide (0 < s.bufferedEntries.length) && !s.rotating then
      match s.bufferedEntries with
      | [] => (s, fs, [])
      | msg :: rest =>
        let r := writeTrace { s with bufferedEntries := rest } fs msg
        if r.2.2 then
          let r2 := drainLoop fuel r.1 r.2.1
          (r2.1, r2.2.1, msg :: r2.2.2)
        else
          ({ r.1 with bufferedEntries := msg :: r.1.bufferedEntries }, r.2.1, [])
    else (s, fs, [])

/-- `open()`: the three asserts, `fileSize := await getFileSize()` (a
non-ENOENT stat failure, injected via `statFault`, propagates), then
`openStream(filename, \x7bflags: 'w', ...\x7d)` — creating or truncating the
target — which either succeeds (`openOk`) or fails, in which case `retry()`
is scheduled and `open()` returns normally.  On success the stream is
installed, `closed := false`, and the pending queue is drained.  The returned
flag is `threw`. -/
def openOp (s : LogState) (fs : FS) (statFault openOk : Bool) : LogState × FS × Bool :=
  if s.filename = "" || !s.stream.isNone || !s.closed then (s, fs, true)
  else
    match getFileSize (if statFault then .err else statOf fs s.filename) with
    | .error _ => (s, fs, true)
    | .ok n =>
      let s1 : LogState := { s with fileSize := .num (n : ℚ) }
      if !openOk then (retry s1, fs, false)
      else
        let fs1 := fsSet fs s1.filename ""
        let s2 : LogState := { s1 with closed := false, stream := some s1.filename }
        let r := drainLoop s2.bufferedEntries.length s2 fs1
        (r.1, r.2.1, false)

/- The rotated-file name is `path.join(dir, base + '.' + this.id + ext)` with
`ext = path.extname(filename)`, `base = path.basename(filename, ext)`,
`dir = path.dirname(filename)`; Node's `path` module is an external
collaborator (not under `src/`), modelled below over character lists. -/

/-- Split a character list at the *last* occurrence of `c`:
`splitLast c l = some (pre, post)` with `l = pre ++ c :: post` and `c ∉ post`. -/
def splitLast (c : Char) : List Char → Option (List Char × List Char)
  | [] => none
  | x :: xs =>
    match splitLast c xs with
    | some (pre, post) => some (x :: pre, post)
    | none => if x = c then some ([], xs) else none

/-- `path.basename(p)` (no extension argument): everything after the last
`/`, or the whole path if there is none. -/
def basenameL (l : List Char) : List Char :=
  match splitLast '/' l with
  | some (_, post) => post
  | none => l

/-- `path.extname(p)`: from the last `.` of the basename to the end, unless
that `.` is the first character of the basename (hidden files have no
extension). -/
def extnameL (l : List Char) : List Char :=
  match splitLast '.' (basenameL l) with
  | some (pre, post) => if pre = [] then [] else '.' :: post
  | none => []

/-- Does `ext` end `b`? -/
def endsWithL (b ext : List Char) : Bool :=
  decide (ext.length ≤ b.length) && decide (b.drop (b.length - ext.length) = ext)

/-- `path.basename(p, ext)`: the basename, with a trailing `ext` removed
unless the basename *is* `ext`. -/
def basenameExtL (l ext : List Char) : List Char :=
  let b := basenameL l
  if b ≠ ext ∧ endsWithL b ext then b.take (b.length - ext.length) else b

/-- `path.dirname(p)`: everything before the last `/` (the root `/` if that
prefix is empty), or `.` if there is no `/`. -/
def dirnameL (l : List Char) : List Char :=
  match splitLast '/' l with
  | some (pre, _) => if pre = [] then ['/'] else pre
  | none => ['.']

/-- `path.join(dir, f)` restricted to the shapes rotation produces: joining
onto `.` normalizes the leading `./` away. -/
def joinL (d f : List Char) : List Char :=
  if d = ['.'] then f else d ++ '/' :: f

/-- The destination computed by `rotate()`:
`path.join(dir, base + '.' + this.id + ext)`. -/
def rotatedName (p : String) (id : Nat) : String :=
  let l := p.toList
  let ext := extnameL l
  let base := basenameExtL l ext
  let dir := dirnameL l
  String.mk (joinL dir (base ++ '.' :: (toString id).toList ++ ext))

/-- Result of a full `rotate()` run. -/
inductive RotResult where
  | noop
  | completed
  | threw
deriving DecidableEq, Repr

/-- The continuation of `rotate()` after its first suspension: finish the
inner `close()` (whose failure rejects `rotate()` and leaves `rotating`
set), rename the closed file to `rotatedName`, clear `rotating`, increment
`id`, and `await this.open()`. -/
def rotateFinish (s : LogState) (fs : FS) (closeOk renameOk statFault openOk : Bool) :
    LogState × FS × Bool :=
  let c := closeFinish s fs closeOk
  if c.2.2 then (c.1, c.2.1, true)
  else
    if !renameOk then (c.1, c.2.1, true)
    else
      let fs2 := fsRename c.2.1 c.1.filename (rotatedName c.1.filename c.1.id)
      let s2 : LogState := { c.1 with rotating := false, id := c.1.id + 1 }
      openOp s2 fs2 statFault openOk

/-- A full `rotate()` call: the synchronous prefix followed, unless it
no-ops or throws, by the continuation. -/
def rotate (s : LogState) (fs : FS) (closeOk renameOk statFault openOk : Bool) :
    LogState × FS × RotResult :=
  match rotateBegin s fs with
  | (s1, fs1, .noop) => (s1, fs1, .noop)
  | (s1, fs1, .assertThrew) => (s1, fs1, .threw)
  | (s1, fs1, .suspended) =>
    let r := rotateFinish s1 fs1 closeOk renameOk statFault openOk
    (r.1, r.2.1, if r.2.2 then .threw else .completed)

/-- The retry timer firing: clear the marker, then call `open()`. -/
def timerFire (s : LogState) (fs : FS) (statFault openOk : Bool) :
    LogState × FS × Bool :=
  openOp { s with timer := none } fs statFault openOk

/-- A JavaScript value as supplied in an options object field. -/
inductive JsVal where
  | str (s : String)
  | num (x : JsNum)
  | boolean (b : Bool)
  | nullv
deriving DecidableEq, Repr

/-- The options object passed to the constructor; `none` models an absent
(`undefined`) field. -/
structure JsOptions where
  filename : Option JsVal := none
  maxFiles : Option JsVal := none
  maxFileSize : Option JsVal := none
deriving DecidableEq, Repr

/-- JavaScript truncation toward zero (the first step of `ToUint32`). -/
def jsTrunc (q : ℚ) : ℤ :=
  if 0 ≤ q then ⌊q⌋ else ⌈q⌉

/-- JavaScript `x >>> 0` (`ToUint32`): truncate toward zero, then reduce
modulo `2^32`; `NaN` maps to 0. -/
def toUint32 : JsNum → Nat
  | .nan => 0
  | .num q => ((jsTrunc q) % (2 ^ 32 : ℤ)).toNat

/-- The check `(x >>> 0) === x` performed by `fromOptions` on numeric
options (`===` on a `NaN` operand is always false). -/
def uint32Same : JsNum → Bool
  | .nan => false
  | .num q => decide ((toUint32 (.num q) : ℚ) = q)

/-- `x != null` (loose): false exactly for `undefined` and `null`. -/
def isSupplied : Option JsVal → Bool
  | none => false
  | some .nullv => false
  | some _ => true

/-- One `if (options.X != null) \x7b assert number; assert (X >>> 0) === X;
this.X = X \x7d` block of `fromOptions`: keep the current field value when
the option is not supplied, store the validated value when it is, throw
(`none`) otherwise. -/
def checkU32 (v : Option JsVal) (cur : Nat) : Option Nat :=
  if isSupplied v then
    match v with
    | some (.num x) => if uint32Same x then some (toUint32 x) else none
    | _ => none
  else some cur

/-- `fromOptions(options)`: assert `filename` is a string and store it; apply
the `checkU32` block to `maxFiles` and to `maxFileSize`.  `none` models a
thrown assertion. -/
def fromOptions (opts : JsOptions) (s : LogState) : Option LogState :=
  match opts.filename with
  | some (.str fname) =>
    match checkU32 opts.maxFiles s.maxFiles with
    | none => none
    | some mf =>
      match checkU32 opts.maxFileSize s.maxFileSize with
      | none => none
      | some mfs =>
        some { s with filename := fname, maxFiles := mf, maxFileSize := mfs }
  | _ => none

/-- The field initializers at the top of the constructor, before
`fromOptions` is applied. -/
def initState : LogState :=
  { stream := none
    fileSize := .num 0
    closed := true
    closing := false
    rotating := false
    bufferedEntries := []
    filename := ""
    maxFiles := 0
    maxFileSize := 100000000
    id := 0
    firstEntry := true
    timer := none }

/-- `new RotatingTraceLog(options)`: initialize the fields, then apply
`fromOptions`; `none` models a thrown assertion. -/
def mkLog (opts : JsOptions) : Option LogState :=
  fromOptions opts initState

/-- The bytes `writeTrace` emits for one record: the `arrayOpen` literal plus
the record for a first entry, a comma plus the record otherwise. -/
def entryPiece (firstEntry : Bool) (r : TraceRecord) : String :=
  if firstEntry then arrayOpen ++ r.str else "," ++ r.str

/-- The bytes a sequence of direct writes emits, threading the
`firstEntry` flag. -/
def entriesPayload (firstEntry : Bool) : List TraceRecord → String
  | [] => ""
  | r :: rs => entryPiece firstEntry r ++ entriesPayload false rs

/-! ## Concrete scenario states used by the claim theorems -/

/-- The size `open()` seeds from our file-system model. -/
def seededSize (fs : FS) (name : String) : Nat :=
  match fsLookup fs name with
  | some c => c.length
  | none => 0

/-- A freshly constructed writer (`stream = null`, `closed = true`): exactly
the state in force while `open()` is still awaiting the sink. -/
def c1Opening : LogState := { initState with filename := "/tmp/trace.json" }

/-- A concrete active writer. -/
def sActive : LogState :=
  { initState with stream := some "t", closed := false, filename := "t" }

/-- A constructed, not-yet-opened writer on `/tmp/trace.json`. -/
def sClosedReady : LogState := { initState with filename := "/tmp/trace.json" }

/-- Options with `maxFileSize = 10`. -/
def c3Opts : JsOptions :=
  { filename := some (.str "/tmp/trace.json"), maxFileSize := some (.num (.num 10)) }

/-- The writer constructed from `c3Opts`. -/
def c3Start : LogState := (mkLog c3Opts).getD initState

/-- The writer after a successful `open()` on an empty file system. -/
def c3Active : LogState := (openOp c3Start [] false true).1

/-- The file system after that `open()`. -/
def c3Fs : FS := (openOp c3Start [] false true).2.1

/-- A realistic trace record (as produced by `markTrace`): 44 serialized
bytes, no `length` property. -/
def c3Rec : TraceRecord :=
  { str := "\x7b\"pid\":1,\"tid\":1,\"ts\":0,\"name\":\"a\",\"ph\":\"B\"\x7d" }

/-- First record of the C4 scenario. -/
def c4R0 : TraceRecord := { str := "\x7b\"ph\":\"B\"\x7d" }

/-- Second record of the C4 scenario, written after the rotation. -/
def c4R1 : TraceRecord := { str := "\x7b\"ph\":\"E\"\x7d" }

/-- State/file system after writing `c4R0` on the opened writer. -/
def c4W1 : LogState × FS × Bool := writeTrace c3Active c3Fs c4R0

/-- State/file system after a fully successful rotation. -/
def c4Rot : LogState × FS × RotResult := rotate c4W1.1 c4W1.2.1 true true false true

/-- State/file system after writing `c4R1` into the fresh active file. -/
def c4W2 : LogState × FS × Bool := writeTrace c4Rot.1 c4Rot.2.1 c4R1

/-! ## Basic lemmas about the file-system model -/

theorem fsLookup_fsSet_self (fs : FS) (name c : String) :
    fsLookup (fsSet fs name c) name = some c := by
  induction fs with
  | nil => simp [fsSet, fsLookup]
  | cons hd tl ih =>
    obtain ⟨m, d⟩ := hd
    by_cases h : m = name
    · simp [fsSet, fsLookup, h]
    · simp [fsSet, fsLookup, h, ih]

theorem fsLookup_fsSet_ne (fs : FS) (name c other : String) (h : other ≠ name) :
    fsLookup (fsSet fs name c) other = fsLookup fs other := by
  have h' : name ≠ other := fun e => h e.symm
  induction fs with
  | nil => simp [fsSet, fsLookup, h']
  | cons hd tl ih =>
    obtain ⟨m, d⟩ := hd
    by_cases hm : m = name
    · subst hm
      simp [fsSet, fsLookup, h']
    · simp [fsSet, fsLookup, hm, ih]

theorem fsSet_fsSet (fs : FS) (name c d : String) :
    fsSet (fsSet fs name c) name d = fsSet fs name d := by
  induction fs with
  | nil => simp [fsSet]
  | cons hd tl ih =>
    obtain ⟨m, e⟩ := hd
    by_cases h : m = name
    · simp [fsSet, h]
    · simp [fsSet, h, ih]

theorem fsLookup_fsRemove_self (fs : FS) (name : String) :
    fsLookup (fsRemove fs name) name = none := by
  induction fs with
  | nil => simp [fsRemove, fsLookup]
  | cons hd tl ih =>
    obtain ⟨m, d⟩ := hd
    by_cases h : m = name
    · simp [fsRemove, h, ih]
    · simp [fsRemove, fsLookup, h, ih]

theorem fsLookup_fsAppend_self (fs : FS) (name x : String) :
    fsLookup (fsAppend fs name x) name = some (((fsLookup fs name).getD "") ++ x) := by
  simp [fsAppend, fsLookup_fsSet_self]

theorem fsAppend_fsAppend (fs : FS) (name a b : String) :
    fsAppend (fsAppend fs name a) name b = fsAppend fs name (a ++ b) := by
  simp [fsAppend, fsLookup_fsSet_self, fsSet_fsSet, String.append_assoc]

/-! ## C10 — constructor validation -/

theorem toUint32_lt (x : JsNum) : toUint32 x < 2 ^ 32 := by
  cases x with
  | nan => simp [toUint32]
  | num q =>
    have h0 : (0 : ℤ) < 2 ^ 32 := by norm_num
    have := Int.emod_lt_of_pos (jsTrunc q) h0
    have := Int.emod_nonneg (jsTrunc q) (by norm_num : (2 ^ 32 : ℤ) ≠ 0)
    simp only [toUint32]
    omega

theorem uint32Same_eq_val {q : ℚ} (h : uint32Same (.num q) = true) :
    ((toUint32 (.num q) : ℕ) : ℚ) = q := by
  simpa only [uint32Same, decide_eq_true_eq] using h

theorem uint32Same_num_iff (q : ℚ) :
    uint32Same (.num q) = true ↔ ∃ n : ℕ, n < 2 ^ 32 ∧ q = (n : ℚ) := by
  constructor
  · intro h
    exact ⟨toUint32 (.num q), toUint32_lt _, (uint32Same_eq_val h).symm⟩
  · rintro ⟨n, hn, rfl⟩
    have h1 : jsTrunc ((n : ℕ) : ℚ) = (n : ℤ) := by
      simp [jsTrunc, Int.floor_natCast]
    have h2 : ((n : ℤ) % (2 ^ 32 : ℤ)) = (n : ℤ) := by
      apply Int.emod_eq_of_lt (by positivity)
      exact_mod_cast hn
    simp only [uint32Same, toUint32, h1, h2, Int.toNat_natCast, decide_eq_true_eq]

theorem checkU32_not_supplied {v : Option JsVal} {cur : Nat}
    (h : isSupplied v = false) : checkU32 v cur = some cur := by
  simp [checkU32, h]

theorem checkU32_num (x : JsNum) (cur : Nat) :
    checkU32 (some (.num x)) cur =
      if uint32Same x then some (toUint32 x) else none := by
  simp [checkU32, isSupplied]

theorem checkU32_some {v : Option JsVal} {cur m : Nat}
    (h : checkU32 v cur = some m) :
    (isSupplied v = false → m = cur) ∧
    (∀ q, v = some (.num (.num q)) → (m : ℚ) = q) := by
  constructor
  · intro hs
    rw [checkU32_not_supplied hs] at h
    exact (Option.some_inj.mp h).symm
  · rintro q rfl
    rw [checkU32_num] at h
    by_cases hu : uint32Same (.num q)
    · simp only [hu, if_true, Option.some_inj] at h
      rw [← h]
      exact uint32Same_eq_val hu
    · simp [hu] at h

theorem checkU32_non_num {v : JsVal} (cur : Nat) (hs : isSupplied (some v) = true)
    (hn : ∀ x, v ≠ .num x) : checkU32 (some v) cur = none := by
  cases v with
  | str a => simp [checkU32, isSupplied]
  | boolean b => simp [checkU32, isSupplied]
  | nullv => simp [isSupplied] at hs
  | num x => exact absurd rfl (hn x)

/-- C10: construction validates its options — it fails unless
`options.filename` is a string; a supplied `maxFiles` or `maxFileSize` must
be a number equal to its own `>>> 0` coercion, i.e. an exact integer in
`[0, 2^32)` (fractional, negative, `NaN` and `≥ 2^32` values are rejected,
and so are non-number values); accepted values are stored unchanged, and the
remaining state starts as `closed = true`, `stream = null`, `fileSize = 0`,
`id = 0`, `firstEntry = true`, with an empty buffer. -/
theorem c10_constructor_validates :
    (∀ opts s, mkLog opts = some s →
      opts.filename = some (.str s.filename) ∧
      s.stream = none ∧ s.fileSize = .num 0 ∧ s.closed = true ∧
      s.closing = false ∧ s.rotating = false ∧ s.bufferedEntries = [] ∧
      s.id = 0 ∧ s.firstEntry = true ∧ s.timer = none ∧
      (isSupplied opts.maxFiles = false → s.maxFiles = 0) ∧
      (isSupplied opts.maxFileSize = false → s.maxFileSize = 100000000) ∧
      (∀ q, opts.maxFiles = some (.num (.num q)) → (s.maxFiles : ℚ) = q) ∧
      (∀ q, opts.maxFileSize = some (.num (.num q)) → (s.maxFileSize : ℚ) = q)) ∧
    (∀ opts, (∀ f, opts.filename ≠ some (.str f)) → mkLog opts = none) ∧
    (∀ opts x, opts.maxFileSize = some (.num x) → uint32Same x = false →
      mkLog opts = none) ∧
    (∀ opts x, opts.maxFiles = some (.num x) → uint32Same x = false →
      mkLog opts = none) ∧
    (∀ opts v, opts.maxFileSize = some v → isSupplied (some v) = true →
      (∀ x, v ≠ .num x) → mkLog opts = none) ∧
    (∀ opts v, opts.maxFiles = some v → isSupplied (some v) = true →
      (∀ x, v ≠ .num x) → mkLog opts = none) ∧
    (∀ q, uint32Same (.num q) = true ↔ ∃ n : ℕ, n < 2 ^ 32 ∧ q = (n : ℚ)) ∧
    uint32Same .nan = false := by
  refine ⟨?_, ?_, ?_, ?_, ?_, ?_, uint32Same_num_iff, rfl⟩
  · intro opts s h
    match hf : opts.filename with
    | none => simp [mkLog, fromOptions, hf] at h
    | some (.num x) => simp [mkLog, fromOptions, hf] at h
    | some (.boolean b) => simp [mkLog, fromOptions, hf] at h
    | some .nullv => simp [mkLog, fromOptions, hf] at h
    | some (.str fname) =>
      simp only [mkLog, fromOptions, hf] at h
      match h1 : checkU32 opts.maxFiles initState.maxFiles with
      | none => simp [h1] at h
      | some mf =>
        match h2 : checkU32 opts.maxFileSize initState.maxFileSize with
        | none => simp [h1, h2] at h
        | some mfs =>
          simp only [h1, h2, Option.some_inj] at h
          subst h
          obtain ⟨hmfk, hmfv⟩ := checkU32_some h1
          obtain ⟨hmsk, hmsv⟩ := checkU32_some h2
          exact ⟨rfl, rfl, rfl, rfl, rfl, rfl, rfl, rfl, rfl, rfl,
            fun hs => hmfk hs, fun hs => hmsk hs, hmfv, hmsv⟩
  · intro opts hne
    match hf : opts.filename with
    | none => simp [mkLog, fromOptions, hf]
    | some (.num x) => simp [mkLog, fromOptions, hf]
    | some (.boolean b) => simp [mkLog, fromOptions, hf]
    | some .nullv => simp [mkLog, fromOptions, hf]
    | some (.str fname) => exact absurd hf (hne fname)
  · intro opts x hx hu
    match hf : opts.filename with
    | none => simp [mkLog, fromOptions, hf]
    | some (.num y) => simp [mkLog, fromOptions, hf]
    | some (.boolean b) => simp [mkLog, fromOptions, hf]
    | some .nullv => simp [mkLog, fromOptions, hf]
    | some (.str fname) =>
      simp only [mkLog, fromOptions, hf]
      have hms : checkU32 opts.maxFileSize initState.maxFileSize = none := by
        rw [hx, checkU32_num, hu]
        simp
      match h1 : checkU32 opts.maxFiles initState.maxFiles with
      | none => simp
      | some mf => simp [hms]
  · intro opts x hx hu
    match hf : opts.filename with
    | none => simp [mkLog, fromOptions, hf]
    | some (.num y) => simp [mkLog, fromOptions, hf]
    | some (.boolean b) => simp [mkLog, fromOptions, hf]
    | some .nullv => simp [mkLog, fromOptions, hf]
    | some (.str fname) =>
      simp only [mkLog, fromOptions, hf]
      have hmf : checkU32 opts.maxFiles initState.maxFiles = none := by
        rw [hx, checkU32_num, hu]
        simp
      simp [hmf]
  · intro opts v hx hs hn
    match hf : opts.filename with
    | none => simp [mkLog, fromOptions, hf]
    | some (.num y) => simp [mkLog, fromOptions, hf]
    | some (.boolean b) => simp [mkLog, fromOptions, hf]
    | some .nullv => simp [mkLog, fromOptions, hf]
    | some (.str fname) =>
      simp only [mkLog, fromOptions, hf]
      have hms : checkU32 opts.maxFileSize initState.maxFileSize = none := by
        rw [hx]
        exact checkU32_non_num _ hs hn
      match h1 : checkU32 opts.maxFiles initState.maxFiles with
      | none => simp
      | some mf => simp [hms]
  · intro opts v hx hs hn
    match hf : opts.filename with
    | none => simp [mkLog, fromOptions, hf]
    | some (.num y) => simp [mkLog, fromOptions, hf]
    | some (.boolean b) => simp [mkLog, fromOptions, hf]
    | some .nullv => simp [mkLog, fromOptions, hf]
    | some (.str fname) =>
      simp only [mkLog, fromOptions, hf]
      have hmf : checkU32 opts.maxFiles initState.maxFiles = none := by
        rw [hx]
        exact checkU32_non_num _ hs hn
      simp [hmf]

/-- Witness for C10 at concrete options: `filename` a string, `maxFiles`
absent, `maxFileSize = 10`. -/
theorem c10_witness :
    ({ filename := some (.str "t.json"), maxFileSize := some (.num (.num 10)) } :
        JsOptions).filename =
      some (.str (({ initState with filename := "t.json", maxFileSize := 10 } :
        LogState).filename)) ∧
    ({ initState with filename := "t.json", maxFileSize := 10 } : LogState).closed
      = true := by
  have h := c10_constructor_validates.1
    { filename := some (.str "t.json"), maxFileSize := some (.num (.num 10)) }
    { initState with filename := "t.json", maxFileSize := 10 }
    (by decide)
  exact ⟨h.1, h.2.2.2.1⟩

/-! ## C9 — retry() idempotence -/

/-- C9: `retry()` is idempotent — if a retry is already scheduled it does
nothing; otherwise it schedules exactly one one-shot 1000 ms delayed
invocation of `open()`, and the timer callback clears the pending-retry
marker before invoking `open()`.  Consecutive `retry()` calls therefore
schedule at most one `open()`. -/
theorem c9_retry_idempotent :
    (∀ s : LogState, s.timer ≠ none → retry s = s) ∧
    (∀ s : LogState, s.timer = none → retry s = { s with timer := some 1000 }) ∧
    (∀ s : LogState, retry (retry s) = retry s) ∧
    (∀ (s : LogState) (fs : FS) (statFault openOk : Bool),
      timerFire s fs statFault openOk =
        openOp { s with timer := none } fs statFault openOk) := by
  refine ⟨?_, ?_, ?_, fun _ _ _ _ => rfl⟩
  · intro s h
    simp [retry, Option.isSome_iff_ne_none.mpr h]
  · intro s h
    simp [retry, h]
  · intro s
    by_cases h : s.timer = none
    · simp [retry, h]
    · simp [retry, Option.isSome_iff_ne_none.mpr h]

/-- Witness for C9 at a state with a pending timer and at one without. -/
theorem c9_witness :
    retry { initState with timer := some 5 } = { initState with timer := some 5 } ∧
    retry initState = { initState with timer := some 1000 } :=
  ⟨c9_retry_idempotent.1 _ (by decide), c9_retry_idempotent.2.1 _ rfl⟩

/-! ## C8 — open(): stat handling and swallowed open failure -/

/-- C8: `open()` determines `fileSize` by statting the target —
a file-does-not-exist result counts as size 0, any other stat failure
propagates to the caller of `open()` — while a failure to open the sink is
never raised: a retry is scheduled, `open()` returns normally, and the
buffered records are untouched. -/
theorem c8_open_errors :
    (∀ n, getFileSize (.size n) = .ok n) ∧
    (getFileSize .enoent = .ok 0) ∧
    (getFileSize .err = .error ()) ∧
    (∀ (fs : FS) (name : String), fsLookup fs name = none → statOf fs name = .enoent) ∧
    (∀ (s : LogState) (fs : FS) (openOk : Bool), s.filename ≠ "" → s.stream = none →
      s.closed = true → openOp s fs true openOk = (s, fs, true)) ∧
    (∀ (s : LogState) (fs : FS), s.filename ≠ "" → s.stream = none → s.closed = true →
      openOp s fs false false =
        (retry { s with fileSize := .num ((seededSize fs s.filename : ℕ) : ℚ) }, fs, false) ∧
      (openOp s fs false false).1.bufferedEntries = s.bufferedEntries) := by
  refine ⟨fun n => rfl, rfl, rfl, ?_, ?_, ?_⟩
  · intro fs name h
    simp [statOf, h]
  · intro s fs openOk h1 h2 h3
    simp [openOp, h1, h2, h3, getFileSize]
  · intro s fs h1 h2 h3
    have hd : decide (s.filename = "") = false := decide_eq_false h1
    have hmain : openOp s fs false false =
        (retry { s with fileSize := .num ((seededSize fs s.filename : ℕ) : ℚ) }, fs, false) := by
      simp only [openOp, h2, h3, hd, Option.isNone_none, Bool.not_true, Bool.false_or,
        Bool.or_false, Bool.or_self, if_false, Bool.false_eq_true]
      match h : fsLookup fs s.filename with
      | some c => simp [statOf, h, getFileSize, seededSize]
      | none => simp [statOf, h, getFileSize, seededSize]
    refine ⟨hmain, ?_⟩
    rw [hmain]
    by_cases ht : ({ s with
        fileSize := JsNum.num ((seededSize fs s.filename : ℕ) : ℚ) } : LogState).timer.isSome
    · simp [retry, ht]
    · simp [retry, ht]

/-- Witness for C8 at a concrete closed writer: a non-ENOENT stat fault
propagates out of `open()`. -/
theorem c8_witness :
    openOp { initState with filename := "t" } [] true true =
      ({ initState with filename := "t" }, [], true) :=
  c8_open_errors.2.2.2.2.1 _ _ _ (by decide) rfl rfl

/-! ## Characterizations of writeTrace -/

theorem writeTrace_rotating (s : LogState) (fs : FS) (r : TraceRecord)
    (h : s.rotating = true) :
    writeTrace s fs r = ({ s with bufferedEntries := s.bufferedEntries ++ [r] }, fs, true) := by
  simp [writeTrace, h]

theorem writeTrace_noStream (s : LogState) (fs : FS) (r : TraceRecord)
    (h1 : s.stream = none) (h2 : s.rotating = false) :
    writeTrace s fs r = (s, fs, false) := by
  simp [writeTrace, h1, h2]

theorem writeTrace_closing (s : LogState) (fs : FS) (r : TraceRecord)
    (h1 : s.closing = true) (h2 : s.rotating = false) :
    writeTrace s fs r = (s, fs, false) := by
  cases h : s.stream with
  | none => exact writeTrace_noStream s fs r h h2
  | some tgt => simp [writeTrace, h, h1, h2]

/-- The direct-write path of `writeTrace`: one delimiter-plus-record append,
the `fileSize` update, and — when the threshold check fires — the
synchronous prefix of `rotate()`. -/
theorem writeTrace_direct (s : LogState) (fs : FS) (r : TraceRecord) (tgt : String)
    (h1 : s.stream = some tgt) (h2 : s.rotating = false) (h3 : s.closing = false)
    (h4 : s.closed = false) (h5 : s.filename ≠ "") :
    writeTrace s fs r =
      if jsGe (jsAdd s.fileSize r.lenProp) ((s.maxFileSize : ℕ) : ℚ) then
        ({ s with
            firstEntry := false,
            fileSize := jsAdd s.fileSize r.lenProp,
            rotating := true,
            closing := true },
          fsAppend (fsAppend fs tgt (entryPiece s.firstEntry r)) tgt arrayClose, true)
      else
        ({ s with
            firstEntry := false,
            fileSize := jsAdd s.fileSize r.lenProp },
          fsAppend fs tgt (entryPiece s.firstEntry r), true) := by
  have hd : decide (s.filename = "") = false := decide_eq_false h5
  by_cases hf : s.firstEntry
  · simp only [writeTrace, h1, h2, h3, hf, entryPiece, if_true, Bool.not_false,
      Option.isSome_some, Option.isNone_some, Bool.false_and, Bool.and_true,
      Bool.false_eq_true, if_false, fsAppend_fsAppend]
    by_cases hg : jsGe (jsAdd s.fileSize r.lenProp) ((s.maxFileSize : ℕ) : ℚ)
    · simp [hg, rotateBegin, h1, h2, h3, h4, h5, fsAppend_fsAppend]
    · simp [hg]
  · simp only [Bool.not_eq_true] at hf
    simp only [writeTrace, h1, h2, h3, hf, entryPiece, Bool.false_eq_true, if_false,
      Option.isNone_some, Bool.false_and, Bool.not_false, Bool.and_true]
    by_cases hg : jsGe (jsAdd s.fileSize r.lenProp) ((s.maxFileSize : ℕ) : ℚ)
    · simp [hg, rotateBegin, h1, h2, h3, h4, h5, hf, fsAppend_fsAppend]
    · simp [hg, h1, h2, h3, hf]

/-! ## C1 — buffering before the sink is open -/

/-- C1 counterexample: with the writer still Opening (`stream` null,
`rotating` false), `writeTrace` returns `false` and buffers nothing — the
record is dropped, not queued, contradicting "the record is buffered and
writeTrace returns true" for a not-yet-open sink. -/
theorem c1_counterexample :
    mkLog { filename := some (.str "/tmp/trace.json") } = some c1Opening ∧
    c1Opening.stream = none ∧ c1Opening.rotating = false ∧
    writeTrace c1Opening [] { str := "r0" } = (c1Opening, [], false) := by
  decide

/-- C1 (amended): a record is buffered, with `writeTrace` returning `true`,
exactly when `rotating` is true; when the sink is not yet open and the
writer is not rotating, `writeTrace` returns `false` and the record is
dropped (not buffered); when the sink is open (not rotating, not closing)
the record is written immediately to the sink. -/
theorem c1_buffer_only_when_rotating :
    (∀ (s : LogState) (fs : FS) (r : TraceRecord), s.rotating = true →
      writeTrace s fs r =
        ({ s with bufferedEntries := s.bufferedEntries ++ [r] }, fs, true)) ∧
    (∀ (s : LogState) (fs : FS) (r : TraceRecord), s.stream = none → s.rotating = false →
      writeTrace s fs r = (s, fs, false)) ∧
    (∀ (s : LogState) (fs : FS) (r : TraceRecord) (tgt : String),
      s.stream = some tgt → s.rotating = false → s.closing = false → s.closed = false →
      s.filename ≠ "" →
      (writeTrace s fs r).2.2 = true ∧
      (writeTrace s fs r).1.bufferedEntries = s.bufferedEntries ∧
      fsLookup (writeTrace s fs r).2.1 tgt =
        some (((fsLookup fs tgt).getD "") ++ entryPiece s.firstEntry r ++
          (if (writeTrace s fs r).1.rotating then arrayClose else ""))) := by
  refine ⟨writeTrace_rotating, writeTrace_noStream, ?_⟩
  intro s fs r tgt h1 h2 h3 h4 h5
  rw [writeTrace_direct s fs r tgt h1 h2 h3 h4 h5]
  by_cases hg : jsGe (jsAdd s.fileSize r.lenProp) ((s.maxFileSize : ℕ) : ℚ)
  · simp [hg, fsAppend_fsAppend, fsLookup_fsAppend_self, String.append_assoc]
  · simp [hg, fsLookup_fsAppend_self, h2, String.append_empty]

/-- Witness for C1's amended statement at a concrete active writer. -/
theorem c1_witness :
    (writeTrace { initState with stream := some "t", closed := false, filename := "t" }
      [("t", "")] { str := "r0" }).2.2 = true :=
  (c1_buffer_only_when_rotating.2.2 _ [("t", "")] { str := "r0" } "t"
    rfl rfl rfl rfl (by decide)).1

/-! ## C5 — close() cleanup semantics -/

/-- C5 counterexample: when the close sequence fails, `closed` stays `false`
and `stream` stays non-null — the writer is *not* restored to a closed
state, contradicting "regardless of I/O outcome ... closed becomes true and
stream becomes null". -/
theorem c5_counterexample :
    closeOp sActive [("t", "X")] false =
      ({ sActive with closing := false }, [("t", "X]\x7d")], true) ∧
    ({ sActive with closing := false } : LogState).closed = false ∧
    ({ sActive with closing := false } : LogState).stream = some "t" := by
  decide

/-- C5 (amended): `close()` writes the trailing `]\x7d` and resets `closing`
to `false` whatever the I/O outcome, and any failure is propagated to the
caller; but only on success are `closed := true` and `stream := null`
applied — on failure `closed` and `stream` are left unchanged. -/
theorem c5_close_cleanup :
    ∀ (s : LogState) (fs : FS) (tgt : String) (closeOk : Bool),
      s.closed = false → s.stream = some tgt →
      (closeOp s fs closeOk).1.closing = false ∧
      ((closeOp s fs closeOk).2.2 = true ↔ closeOk = false) ∧
      fsLookup (closeOp s fs closeOk).2.1 tgt =
        some (((fsLookup fs tgt).getD "") ++ arrayClose) ∧
      (closeOk = true →
        (closeOp s fs closeOk).1 =
          { s with closing := false, stream := none, closed := true }) ∧
      (closeOk = false → (closeOp s fs closeOk).1 = { s with closing := false }) := by
  intro s fs tgt closeOk h1 h2
  cases closeOk with
  | true => simp [closeOp, closeFinish, h1, h2, fsLookup_fsAppend_self]
  | false => simp [closeOp, closeFinish, h1, h2, fsLookup_fsAppend_self]

/-- Witness for C5's amended statement: a successful close at a concrete
active writer. -/
theorem c5_witness :
    (closeOp sActive [("t", "X")] true).1 =
      { sActive with closing := false, stream := none, closed := true } :=
  (c5_close_cleanup sActive [("t", "X")] "t" true rfl rfl).2.2.2.1 rfl

/-! ## C2 — open() truncates instead of appending -/

/-- C2: the claim fails on the code.  `open()` seeds `fileSize` from the
existing file's size (here 5), but opens the sink with `flags: 'w'`, which
*truncates* the file: after a successful `open()` the prior content
`"PRIOR"` is gone and the file is empty.  The spec's append-mode reading is
the evident intent (the size seeding is only coherent with appending), so
this is recorded as a code bug. -/
theorem c2_open_truncates :
    (openOp sClosedReady [("/tmp/trace.json", "PRIOR")] false true).1.fileSize =
      .num 5 ∧
    fsLookup (openOp sClosedReady [("/tmp/trace.json", "PRIOR")] false true).2.1
      "/tmp/trace.json" = some "" ∧
    (openOp sClosedReady [("/tmp/trace.json", "PRIOR")] false true).2.2 = false := by
  decide

/-! ## C3 — fileSize is updated with `json.length`, not the serialized length -/

/-- C3: the claim fails on the code.  `writeTrace` serializes the record but
then executes `this.fileSize += json.length`; a trace record has no `length`
property, so `fileSize` becomes `NaN` instead of increasing by the
serialized length (0 + 44 = 44 ≥ 10 would have to rotate), and
`NaN >= maxFileSize` is false, so the threshold crossing triggers *no*
rotation. -/
theorem c3_fileSize_nan :
    c3Active.fileSize = .num 0 ∧ c3Active.maxFileSize = 10 ∧
    c3Rec.lenProp = none ∧ 10 ≤ c3Rec.str.length ∧
    (writeTrace c3Active c3Fs c3Rec).2.2 = true ∧
    (writeTrace c3Active c3Fs c3Rec).1.fileSize = .nan ∧
    (writeTrace c3Active c3Fs c3Rec).1.rotating = false := by
  decide

/-! ## C4 — the post-rotation file misses the `arrayOpen` literal -/

/-- C4: the claim fails on the code.  The rotated file `/tmp/trace.0.json`
does have the required shape, but `firstEntry` is never reset on rotation,
so the first record written to the fresh active file is emitted as
`"," ++ record` — it starts with a comma, not with the `arrayOpen` literal
(the fresh file is not even valid JSON).  The per-file shape the spec
demands is the evident intent (each file is closed with `]\x7d`), so this
is recorded as a code bug. -/
theorem c4_fresh_file_lacks_header :
    c4Rot.2.2 = .completed ∧
    fsLookup c4Rot.2.1 "/tmp/trace.0.json" =
      some (arrayOpen ++ c4R0.str ++ arrayClose) ∧
    c4Rot.1.firstEntry = false ∧
    c4W2.2.2 = true ∧
    fsLookup c4W2.2.1 "/tmp/trace.json" = some ("," ++ c4R1.str) ∧
    ("," ++ c4R1.str).toList.head? = some ',' ∧
    arrayOpen.toList.head? = some '\x7b' := by
  decide

/-! ## C7 — rotate(): no-op conditions, rename target, sequence id -/

theorem splitLast_eq_none {c : Char} {l : List Char} (h : c ∉ l) :
    splitLast c l = none := by
  induction l with
  | nil => rfl
  | cons x xs ih =>
    have hx : ¬(x = c) := by
      rintro rfl
      exact h (List.mem_cons_self _ _)
    have hxs : c ∉ xs := fun m => h (List.mem_cons_of_mem _ m)
    simp [splitLast, ih hxs, hx]

theorem splitLast_append {c : Char} (l1 : List Char) {l2 : List Char} (h : c ∉ l2) :
    splitLast c (l1 ++ c :: l2) = some (l1, l2) := by
  induction l1 with
  | nil => simp [splitLast, splitLast_eq_none h]
  | cons x xs ih => simp [splitLast, ih]

/-- The rename destination has the documented shape
`<dir>/<base>.<id><ext>` for a well-formed `<dir>/<base><ext>` filename
(`ext = '.' :: e`). -/
theorem rotatedName_shape (dir base e : List Char) (k : ℕ)
    (hdir1 : dir ≠ []) (hdir2 : dir ≠ ['.']) (hbase : base ≠ [])
    (hb1 : '/' ∉ base) (_hb2 : '.' ∉ base) (he1 : '/' ∉ e) (he2 : '.' ∉ e) :
    rotatedName (String.mk (dir ++ '/' :: (base ++ '.' :: e))) k =
      String.mk (dir ++ '/' :: (base ++ '.' :: ((toString k).toList ++ '.' :: e))) := by
  have hmem : '/' ∉ base ++ '.' :: e := by
    simp only [List.mem_append, List.mem_cons]
    push_neg
    exact ⟨hb1, by decide, he1⟩
  have hsl : splitLast '/' (dir ++ '/' :: (base ++ '.' :: e)) =
      some (dir, base ++ '.' :: e) := splitLast_append dir hmem
  have hb : basenameL (dir ++ '/' :: (base ++ '.' :: e)) = base ++ '.' :: e := by
    simp [basenameL, hsl]
  have hsd : splitLast '.' (base ++ '.' :: e) = some (base, e) := splitLast_append base he2
  have hext : extnameL (dir ++ '/' :: (base ++ '.' :: e)) = '.' :: e := by
    simp [extnameL, hb, hsd, hbase]
  have hlen : (base ++ '.' :: e).length - ('.' :: e).length = base.length := by
    simp [List.length_append]
  have hne : base ++ '.' :: e ≠ '.' :: e := by
    intro hcontra
    have := congrArg List.length hcontra
    simp [List.length_append] at this
    exact hbase this
  have hends : endsWithL (base ++ '.' :: e) ('.' :: e) = true := by
    have ha : ('.' :: e).length ≤ (base ++ '.' :: e).length := by
      simp [List.length_append]
    have hc : (base ++ '.' :: e).drop ((base ++ '.' :: e).length - ('.' :: e).length) =
        '.' :: e := by
      rw [hlen]
      exact List.drop_left base ('.' :: e)
    simp [endsWithL, ha, hc]
  have hbe : basenameExtL (dir ++ '/' :: (base ++ '.' :: e)) ('.' :: e) = base := by
    simp only [basenameExtL, hb, hne, hends, ne_eq, not_false_iff, true_and, if_true,
      hlen, List.take_left]
  have hdn : dirnameL (dir ++ '/' :: (base ++ '.' :: e)) = dir := by
    simp [dirnameL, hsl, hdir1]
  have htl : (String.mk (dir ++ '/' :: (base ++ '.' :: e))).toList =
      dir ++ '/' :: (base ++ '.' :: e) := rfl
  simp only [rotatedName, htl, hext, hbe, hdn]
  simp [joinL, hdir2]

theorem rotate_noop_rotating (s : LogState) (fs : FS) (a b c d : Bool)
    (h : s.rotating = true) : rotate s fs a b c d = (s, fs, .noop) := by
  simp [rotate, rotateBegin, h]

theorem rotate_noop_inactive (s : LogState) (fs : FS) (a b c d : Bool)
    (h1 : s.rotating = false) (h2 : s.stream = none ∨ s.closed = true) :
    rotate s fs a b c d = (s, fs, .noop) := by
  cases h2 with
  | inl h => simp [rotate, rotateBegin, h1, h]
  | inr h => simp [rotate, rotateBegin, h1, h]

/-- C7: `rotate()` is a no-op when already rotating or when the sink is not
active (stream null or writer closed); otherwise (under successful I/O) it
closes the file once, renames it to `rotatedName` — which for a well-formed
`<dir>/<base><ext>` path is `<dir>/<base>.<id><ext>`, preserving the
extension — increments `id` by exactly one, and reopens the base path. -/
theorem c7_rotate_once :
    (∀ (s : LogState) (fs : FS) (a b c d : Bool), s.rotating = true →
      rotate s fs a b c d = (s, fs, .noop)) ∧
    (∀ (s : LogState) (fs : FS) (a b c d : Bool), s.rotating = false →
      s.stream = none ∨ s.closed = true →
      rotate s fs a b c d = (s, fs, .noop)) ∧
    (∀ (s : LogState) (fs : FS), s.rotating = false → s.stream = some s.filename →
      s.closed = false → s.filename ≠ "" → s.bufferedEntries = [] →
      rotatedName s.filename s.id ≠ s.filename →
      rotate s fs true true false true =
        ({ s with
            stream := some s.filename,
            fileSize := .num 0,
            closed := false,
            closing := false,
            rotating := false,
            id := s.id + 1 },
          fsSet (fsRename (fsAppend fs s.filename arrayClose) s.filename
            (rotatedName s.filename s.id)) s.filename "",
          .completed)) ∧
    (∀ (dir base e : List Char) (k : ℕ),
      dir ≠ [] → dir ≠ ['.'] → base ≠ [] →
      '/' ∉ base → '.' ∉ base → '/' ∉ e → '.' ∉ e →
      rotatedName (String.mk (dir ++ '/' :: (base ++ '.' :: e))) k =
        String.mk (dir ++ '/' :: (base ++ '.' :: ((toString k).toList ++ '.' :: e)))) := by
  refine ⟨rotate_noop_rotating, rotate_noop_inactive, ?_, rotatedName_shape⟩
  intro s fs h1 h2 h3 h4 h5 h6
  have hd : decide (s.filename = "") = false := decide_eq_false h4
  have hlk : fsLookup (fsAppend fs s.filename arrayClose) s.filename =
      some (((fsLookup fs s.filename).getD "") ++ arrayClose) :=
    fsLookup_fsAppend_self fs s.filename arrayClose
  have hgone : fsLookup (fsRename (fsAppend fs s.filename arrayClose) s.filename
      (rotatedName s.filename s.id)) s.filename = none := by
    simp only [fsRename, hlk]
    rw [fsLookup_fsSet_ne _ _ _ _ (Ne.symm h6)]
    exact fsLookup_fsRemove_self _ _
  simp only [rotate, rotateBegin, h1, h2, h3, Option.isNone_some, Bool.false_or,
    Bool.false_eq_true, if_false, if_neg h4, rotateFinish, closeFinish, if_true,
    Bool.not_true, openOp, hd, Option.isNone_none, Bool.not_false, Bool.or_false,
    Bool.or_self, statOf, hgone, getFileSize, h5]
  simp [drainLoop, h5]

/-- Witness for C7: a concrete successful rotation of `/tmp/trace.json`
with sequence id 0. -/
theorem c7_witness :
    rotate { initState with
        stream := some "/tmp/trace.json", closed := false,
        filename := "/tmp/trace.json" }
      [("/tmp/trace.json", "X")] true true false true =
      ({ initState with
          stream := some "/tmp/trace.json", closed := false,
          filename := "/tmp/trace.json", fileSize := .num 0, id := 1 },
        [("/tmp/trace.0.json", "X]\x7d"), ("/tmp/trace.json", "")],
        .completed) := by
  have h := c7_rotate_once.2.2.1
    { initState with
        stream := some "/tmp/trace.json", closed := false,
        filename := "/tmp/trace.json" }
    [("/tmp/trace.json", "X")] rfl rfl rfl (by decide) rfl (by decide)
  rw [h]
  decide

/-! ## C6 — FIFO drain -/

theorem drainLoop_rotating (n : Nat) (s : LogState) (fs : FS) (h : s.rotating = true) :
    drainLoop n s fs = (s, fs, []) := by
  cases n with
  | zero => rfl
  | succ m => simp [drainLoop, h]

/-- The drain loop hands a prefix of the buffer to `writeTrace` in FIFO
order, leaves exactly the remaining suffix buffered, appends the
corresponding payload to the open file (plus the close literal when a write
triggered rotation), and stops early only because a rotation began. -/
theorem drain_spec (buf : List TraceRecord) :
    ∀ (s : LogState) (fs : FS) (tgt cur : String),
      s.bufferedEntries = buf → s.stream = some tgt → s.closed = false →
      s.closing = false → s.rotating = false → s.filename ≠ "" →
      fsLookup fs tgt = some cur →
      ∃ k, (drainLoop buf.length s fs).2.2 = buf.take k ∧
        (drainLoop buf.length s fs).1.bufferedEntries = buf.drop k ∧
        fsLookup (drainLoop buf.length s fs).2.1 tgt =
          some (cur ++ entriesPayload s.firstEntry (buf.take k) ++
            (if (drainLoop buf.length s fs).1.rotating then arrayClose else "")) ∧
        k ≤ buf.length ∧
        (k < buf.length → (drainLoop buf.length s fs).1.rotating = true) := by
  induction buf with
  | nil =>
    intro s fs tgt cur hbuf h2 h3 h4 h5 h6 h7
    refine ⟨0, rfl, ?_, ?_, le_refl _, fun h => absurd h (by simp)⟩
    · simpa [drainLoop] using hbuf
    · simp [drainLoop, entriesPayload, h5, h7, String.append_empty]
  | cons r rest ih =>
    intro s fs tgt cur hbuf h2 h3 h4 h5 h6 h7
    have hcond : (decide (0 < s.bufferedEntries.length) && !s.rotating) = true := by
      simp [hbuf, h5]
    have hstep : drainLoop (r :: rest).length s fs =
        (let w := writeTrace { s with bufferedEntries := rest } fs r
         if w.2.2 then
           let r2 := drainLoop rest.length w.1 w.2.1
           (r2.1, r2.2.1, r :: r2.2.2)
         else
           ({ w.1 with bufferedEntries := r :: w.1.bufferedEntries }, w.2.1, [])) := by
      conv_lhs => rw [List.length_cons, drainLoop]
      rw [if_pos hcond]
      simp only [hbuf]
    have hw := writeTrace_direct { s with bufferedEntries := rest } fs r tgt h2 h5 h4 h3 h6
    by_cases hg : jsGe (jsAdd s.fileSize r.lenProp) ((s.maxFileSize : ℕ) : ℚ)
    · -- the write triggers rotation: one entry drained, then the loop stops
      rw [if_pos hg] at hw
      have hres : drainLoop (r :: rest).length s fs =
          ({ s with
              bufferedEntries := rest,
              firstEntry := false,
              fileSize := jsAdd s.fileSize r.lenProp,
              rotating := true,
              closing := true },
            fsAppend (fsAppend fs tgt (entryPiece s.firstEntry r)) tgt arrayClose,
            [r]) := by
        rw [hstep]
        simp only [hw, if_true]
        rw [drainLoop_rotating rest.length _ _ rfl]
      refine ⟨1, ?_, ?_, ?_, by simp, fun _ => ?_⟩ <;> rw [hres] <;>
        simp [fsAppend_fsAppend, fsLookup_fsAppend_self, h7, entriesPayload, entryPiece,
          String.append_empty, String.append_assoc]
    · -- no rotation: recurse on the tail
      rw [if_neg hg] at hw
      have hlk : fsLookup (fsAppend fs tgt (entryPiece s.firstEntry r)) tgt =
          some (cur ++ entryPiece s.firstEntry r) := by
        rw [fsLookup_fsAppend_self, h7]
        rfl
      obtain ⟨k, hk1, hk2, hk3, hk4, hk5⟩ :=
        ih { s with
              bufferedEntries := rest,
              firstEntry := false,
              fileSize := jsAdd s.fileSize r.lenProp }
          (fsAppend fs tgt (entryPiece s.firstEntry r)) tgt
          (cur ++ entryPiece s.firstEntry r) rfl h2 h3 h4 h5 h6 hlk
      have hres : drainLoop (r :: rest).length s fs =
          ((drainLoop rest.length
              { s with
                  bufferedEntries := rest,
                  firstEntry := false,
                  fileSize := jsAdd s.fileSize r.lenProp }
              (fsAppend fs tgt (entryPiece s.firstEntry r))).1,
            (drainLoop rest.length
              { s with
                  bufferedEntries := rest,
                  firstEntry := false,
                  fileSize := jsAdd s.fileSize r.lenProp }
              (fsAppend fs tgt (entryPiece s.firstEntry r))).2.1,
            r :: (drainLoop rest.length
              { s with
                  bufferedEntries := rest,
                  firstEntry := false,
                  fileSize := jsAdd s.fileSize r.lenProp }
              (fsAppend fs tgt (entryPiece s.firstEntry r))).2.2) := by
        rw [hstep]
        simp only [hw, if_true]
      refine ⟨k + 1, ?_, ?_, ?_, by simp [List.length_cons]; omega, ?_⟩ <;> rw [hres]
      · simp only [List.take_succ_cons]
        rw [hk1]
      · simp only [List.drop_succ_cons]
        rw [hk2]
      · simp only [List.take_succ_cons, entriesPayload]
        rw [hk3]
        simp [String.append_assoc]
      · intro hlt
        simp only [List.length_cons] at hlt
        exact hk5 (by omega)

/-- C6: accepted records are written in submission order — the pending queue
is drained strictly FIFO (the drained entries are exactly a prefix of the
queue, in order, and the queue retains exactly the remaining suffix, in
order), the drain runs only while not rotating, their payloads land in the
file in that order, and the drain stops before exhausting the queue only
when a rotation begins mid-drain. -/
theorem c6_fifo_drain :
    (∀ (n : Nat) (s : LogState) (fs : FS), s.rotating = true →
      drainLoop n s fs = (s, fs, [])) ∧
    (∀ (s : LogState) (fs : FS) (tgt cur : String),
      s.stream = some tgt → s.closed = false → s.closing = false →
      s.rotating = false → s.filename ≠ "" → fsLookup fs tgt = some cur →
      ∃ k, (drainLoop s.bufferedEntries.length s fs).2.2 = s.bufferedEntries.take k ∧
        (drainLoop s.bufferedEntries.length s fs).1.bufferedEntries =
          s.bufferedEntries.drop k ∧
        fsLookup (drainLoop s.bufferedEntries.length s fs).2.1 tgt =
          some (cur ++ entriesPayload s.firstEntry (s.bufferedEntries.take k) ++
            (if (drainLoop s.bufferedEntries.length s fs).1.rotating then arrayClose
             else "")) ∧
        k ≤ s.bufferedEntries.length ∧
        (k < s.bufferedEntries.length →
          (drainLoop s.bufferedEntries.length s fs).1.rotating = true)) :=
  ⟨drainLoop_rotating,
   fun s fs tgt cur h2 h3 h4 h5 h6 h7 =>
     drain_spec s.bufferedEntries s fs tgt cur rfl h2 h3 h4 h5 h6 h7⟩

/-- Witness for C6: a concrete opened writer with two buffered records. -/
theorem c6_witness :
    ∃ k,
      (drainLoop
        ({ initState with
            stream := some "t", closed := false, filename := "t",
            bufferedEntries := [{ str := "r0" }, { str := "r1" }] } :
          LogState).bufferedEntries.length
        { initState with
            stream := some "t", closed := false, filename := "t",
            bufferedEntries := [{ str := "r0" }, { str := "r1" }] }
        [("t", "")]).2.2 =
        ([{ str := "r0" }, { str := "r1" }] : List TraceRecord).take k ∧
      (drainLoop
        ({ initState with
            stream := some "t", closed := false, filename := "t",
            bufferedEntries := [{ str := "r0" }, { str := "r1" }] } :
          LogState).bufferedEntries.length
        { initState with
            stream := some "t", closed := false, filename := "t",
            bufferedEntries := [{ str := "r0" }, { str := "r1" }] }
        [("t", "")]).1.bufferedEntries =
        ([{ str := "r0" }, { str := "r1" }] : List TraceRecord).drop k := by
  obtain ⟨k, hk1, hk2, _⟩ := c6_fifo_drain.2
    { initState with
        stream := some "t", closed := false, filename := "t",
        bufferedEntries := [{ str := "r0" }, { str := "r1" }] }
    [("t", "")] "t" "" rfl rfl rfl rfl (by decide) rfl
  exact ⟨k, hk1, hk2⟩

end TraceLog
